import Mathlib

/-!
Verification development for the text-chunk codec and the curve renderers
of this repository.

The codec functions `convert_text_lines_to_tags` and
`convert_tags_to_text_lines` live in `ezdxf/modern/solid3d.py`, which is not
part of the source tree here (only their test file is), so the codec is
modelled from the specification document.  The curve renderers are embedded
from `ezdxf/addons/curves.py`.  Text lines are modelled as `List Char`;
float coordinates and angles are modelled as exact rationals.
-/

namespace Ezdxf

/-- Modelled from the spec: the tag discriminant attached to each fragment,
distinguishing a primary fragment (begins a new text line) from a
continuation fragment (extends the current line). -/
inductive Tag where
  | Primary
  | Continuation
  deriving DecidableEq, Repr

/-- Modelled from the spec: wire-level tag codes, Primary 1, Continuation 3. -/
def tag_code : Tag → Nat
  | Tag.Primary => 1
  | Tag.Continuation => 3

/-- A text line is an arbitrary sequence of characters. -/
abbrev TextLine := List Char

/-- Modelled from the spec: the continuation chunks of the part of a line
beyond its first 255 characters.  Splitting is performed in chunks of
exactly 255 characters, stopping once the remaining unconsumed portion is
fully emitted, with no extra empty trailing chunk. -/
def contChunks (s : TextLine) : List (Tag × TextLine) :=
  if h : s = [] then []
  else (Tag.Continuation, s.take 255) :: contChunks (s.drop 255)
termination_by s.length
decreasing_by
  simp only [List.length_drop]
  exact Nat.sub_lt (List.length_pos.mpr h) (by decide)

/-- Modelled from the spec: the pairs emitted for one text line.  A line of
length at most 255 emits one pair (Primary, line); a longer line emits
(Primary, first 255 chars) followed by continuation chunks of the rest. -/
def encodeLine (line : TextLine) : List (Tag × TextLine) :=
  (Tag.Primary, line.take 255) :: contChunks (line.drop 255)

/-- Modelled from the spec: `convert_text_lines_to_tags` of
`ezdxf.modern.solid3d` (absent from src, only its tests are present).
Lines are processed independently and their pair sequences are appended in
input order. -/
def convert_text_lines_to_tags (lines : List TextLine) : List (Tag × TextLine) :=
  (lines.map encodeLine).flatten

/-- Modelled from the spec: the error taxonomy of decode.  A continuation
fragment with no preceding primary fragment is a distinct failure kind. -/
inductive DecodeError where
  | MalformedContinuation
  deriving DecidableEq, Repr

/-- Modelled from the spec: the decoding scan.  The first argument is the
currently accumulating line, `none` when no line has been started yet.
A primary fragment starts a new line, flushing the previous one, if any;
a continuation fragment appends to the current line; at end of input the
current line, if one was started, is flushed. -/
def decodeScan : Option TextLine → List (Tag × TextLine) → Except DecodeError (List TextLine)
  | none, [] => Except.ok []
  | some cur, [] => Except.ok [cur]
  | none, (Tag.Primary, frag) :: rest => decodeScan (some frag) rest
  | some cur, (Tag.Primary, frag) :: rest =>
      Except.map (fun ls => cur :: ls) (decodeScan (some frag) rest)
  | none, (Tag.Continuation, _) :: _ => Except.error DecodeError.MalformedContinuation
  | some cur, (Tag.Continuation, frag) :: rest => decodeScan (some (cur ++ frag)) rest

/-- Modelled from the spec: `convert_tags_to_text_lines` of
`ezdxf.modern.solid3d` (absent from src, only its tests are present). -/
def convert_tags_to_text_lines (tags : List (Tag × TextLine)) :
    Except DecodeError (List TextLine) :=
  decodeScan none tags

/-- Coordinates of the curve embedding: Python floats are modelled as exact
rationals; a point or vector is an (x, y, z) triple. -/
abbrev V3 := ℚ × ℚ × ℚ

/-- One entry of the points list of class Bezier in `ezdxf/addons/curves.py`:
the tuple (point, tangent1, tangent2, segments).  `Bezier.start` stores
(point, None, tangent, None) and `Bezier.append` stores
(point, tangent1, tangent2, int(segments)). -/
structure BezPoint where
  point : V3
  tangent1 : Option V3
  tangent2 : V3
  count : Option Nat

/-- Bezier.start: set start point and start tangent, appending
(point, None, tangent, None) to the points list. -/
def bezier_start (points : List BezPoint) (point tangent : V3) :
    List BezPoint :=
  points ++ [⟨point, none, tangent, none⟩]

/-- Bezier.append: append a control point with two control tangents; an
omitted tangent2 defaults to -tangent1. -/
def bezier_append (points : List BezPoint) (point tangent1 : V3)
    (tangent2 : Option V3) (segments : Nat) : List BezPoint :=
  points ++ [⟨point, some tangent1, tangent2.getD (-tangent1), some segments⟩]

/-- The data of one Bezier.Segment: start and end control point, start and
end tangent, and the approximation count, read off a consecutive pair of
point tuples exactly as _build_bezier_segments does (from_point[0],
to_point[0], from_point[2], to_point[1], to_point[3]). -/
structure BezSegment where
  start : V3
  stop : V3
  start_tangent : V3
  end_tangent : Option V3
  count : Option Nat

def mkSegment (fp tp : BezPoint) : BezSegment :=
  ⟨fp.point, tp.point, fp.tangent2, tp.tangent1, tp.count⟩

/-- Bezier._build_bezier_segments: one segment per consecutive pair of
control points when there are at least two, else the ValueError with message
"Two or more points needed!" (raised on first iteration of the generator,
which render performs at once). -/
def build_bezier_segments (points : List BezPoint) :
    Except String (List BezSegment) :=
  if 1 < points.length then
    Except.ok (List.zipWith mkSegment points.dropLast points.tail)
  else Except.error "Two or more points needed!"

/-- The single layout-sink call a render performs: which polyline method of
the layout is invoked and the point list passed to it. -/
inductive PolylineCall where
  | add_polyline2d (points : List V3)
  | add_polyline3d (points : List V3)

/-- Bezier.render from `ezdxf/addons/curves.py`, parametric in the segment
approximation function (Bezier4P.approximate lives outside src): it
concatenates the approximation points of all segments in order and
dispatches to add_polyline3d when force3d is set or some point has nonzero
z coordinate, else to add_polyline2d; a ValueError from segment building
propagates, in which case no sink call is made. -/
def bezier_render (approximate : BezSegment → List V3)
    (points : List BezPoint) (force3d : Bool) : Except String PolylineCall :=
  match build_bezier_segments points with
  | Except.error e => Except.error e
  | Except.ok segs =>
      let pts := (segs.map approximate).flatten
      if force3d || pts.any (fun p => p.2.2 != 0) then
        Except.ok (PolylineCall.add_polyline3d pts)
      else
        Except.ok (PolylineCall.add_polyline2d pts)

/-- The point list Bezier.render accumulates: the concatenation, in segment
order, of the approximation points of each segment. -/
def bezier_points (approximate : BezSegment → List V3)
    (points : List BezPoint) : List V3 :=
  ((List.zipWith mkSegment points.dropLast points.tail).map approximate).flatten

/-- The dispatch condition of Bezier.render: force3d or some accumulated
point with nonzero z coordinate. -/
def bezier_uses_3d (approximate : BezSegment → List V3)
    (points : List BezPoint) (force3d : Bool) : Bool :=
  force3d || (bezier_points approximate points).any (fun p => p.2.2 != 0)

/-- Python math.fmod on exact rationals: x - y * trunc(x / y), the result
keeping the sign of x. -/
def fmod (x y : ℚ) : ℚ :=
  x - y * (((if 0 ≤ x / y then ⌊x / y⌋ else ⌈x / y⌉) : ℤ) : ℚ)

/-- normalize_angle from Ellipse.render: fmod by 360, shifting a negative
remainder into [0, 360). -/
def normalize_angle (angle : ℚ) : ℚ :=
  let a := fmod angle 360
  if a < 0 then a + 360 else a

/-- Modelled from the spec: `equals_almost` of `ezdxf.algebra.base` is not
under src; on the exact rationals of this model the almost-equality of two
floats is exact equality. -/
def equals_almost (a b : ℚ) : Bool := a == b

/-- The angles Ellipse.render samples: startangle + delta * k for
k = 0 .. segments - 1, with delta = (endangle - startangle) / segments. -/
def ellipse_sample_angles (startangle endangle : ℚ) (segments : ℕ) : List ℚ :=
  (List.range segments).map
    (fun k : ℕ => startangle + (endangle - startangle) / (segments : ℚ) * (k : ℚ))

/-- Ellipse.render from `ezdxf/addons/curves.py`, parametric in curve_point
(its trigonometric evaluation uses floats outside this model): the pair of
the point list passed to add_polyline2d and the closed display attribute. -/
def ellipse_render (curve_point : ℚ → V3) (startangle endangle : ℚ)
    (segments : ℕ) : List V3 × Bool :=
  ((ellipse_sample_angles startangle endangle segments).map curve_point,
   equals_almost startangle (normalize_angle endangle))

/-- The 300-character line "0123456789" repeated 30 times, used by the
concrete test expectations of the spec. -/
def line300 : TextLine := (List.replicate 30 ("0123456789".toList)).flatten

/-- A well-formed block of tagged pairs for one line: one Primary fragment
followed by the Continuation fragments of the same line. -/
def blockTags (b : TextLine × List TextLine) : List (Tag × TextLine) :=
  (Tag.Primary, b.1) :: b.2.map (fun f => (Tag.Continuation, f))

/-- The text line a block of tagged pairs reconstructs to. -/
def blockLine (b : TextLine × List TextLine) : TextLine := b.1 ++ b.2.flatten

/-- A concrete two-point control polygon built through bezier_start and
bezier_append, used to instantiate the hypotheses of the render theorems. -/
def bezTestPoints : List BezPoint :=
  bezier_append (bezier_start [] (0, 0, 0) (1, 0, 0)) (1, 1, 0) (1, 0, 0) none 20

theorem contChunks_nil : contChunks [] = [] := by
  rw [contChunks]
  simp

theorem contChunks_ne_nil (s : TextLine) (h : s ≠ []) :
    contChunks s = (Tag.Continuation, s.take 255) :: contChunks (s.drop 255) := by
  rw [contChunks]
  simp [h]

theorem contChunks_short (s : TextLine) (h : s ≠ []) (hlen : s.length ≤ 255) :
    contChunks s = [(Tag.Continuation, s)] := by
  rw [contChunks_ne_nil s h, List.take_of_length_le hlen, List.drop_eq_nil_of_le hlen,
    contChunks_nil]

theorem contChunks_snd_flatten (s : TextLine) :
    ((contChunks s).map Prod.snd).flatten = s := by
  induction s using contChunks.induct with
  | case1 => simp [contChunks_nil]
  | case2 s h ih =>
      rw [contChunks_ne_nil s h]
      simp only [List.map_cons, List.flatten_cons, ih]
      exact List.take_append_drop 255 s

theorem encodeLine_snd_flatten (line : TextLine) :
    ((encodeLine line).map Prod.snd).flatten = line := by
  simp only [encodeLine, List.map_cons, List.flatten_cons, contChunks_snd_flatten]
  exact List.take_append_drop 255 line

theorem encode_cons (l : TextLine) (ls : List TextLine) :
    convert_text_lines_to_tags (l :: ls) =
      encodeLine l ++ convert_text_lines_to_tags ls := by
  simp [convert_text_lines_to_tags]

theorem decodeScan_contChunks (s : TextLine) :
    ∀ (cur : TextLine) (rest : List (Tag × TextLine)),
      decodeScan (some cur) (contChunks s ++ rest) = decodeScan (some (cur ++ s)) rest := by
  induction s using contChunks.induct with
  | case1 =>
      intro cur rest
      simp [contChunks_nil]
  | case2 s h ih =>
      intro cur rest
      rw [contChunks_ne_nil s h]
      simp only [List.cons_append, decodeScan, List.append_eq, ih, List.append_assoc,
        List.take_append_drop]

theorem decodeScan_encode (lines : List TextLine) :
    ∀ cur : Option TextLine,
      decodeScan cur (convert_text_lines_to_tags lines) =
        Except.ok (cur.toList ++ lines) := by
  induction lines with
  | nil =>
      intro cur
      cases cur <;> rfl
  | cons l ls ih =>
      intro cur
      rw [encode_cons]
      cases cur with
      | none =>
          simp only [encodeLine, List.cons_append, decodeScan, List.append_eq,
            decodeScan_contChunks, List.take_append_drop, ih (some l), Option.toList]
          rfl
      | some c =>
          simp only [encodeLine, List.cons_append, decodeScan, List.append_eq,
            decodeScan_contChunks, List.take_append_drop, ih (some l), Option.toList,
            Except.map]
          rfl

/-- C1: round-trip law: decoding the encoding of any finite ordered sequence
of text lines yields exactly that sequence. -/
theorem decode_encode_roundtrip (lines : List TextLine) :
    convert_tags_to_text_lines (convert_text_lines_to_tags lines) = Except.ok lines := by
  rw [convert_tags_to_text_lines, decodeScan_encode lines none]
  rfl

/-- C2: a Continuation-tagged fragment appearing before any Primary-tagged
fragment makes decode signal the distinct MalformedContinuation error
immediately, whatever follows; in particular for the single-pair input
(Continuation, "x"). -/
theorem decode_leading_continuation_error (frag : TextLine)
    (rest : List (Tag × TextLine)) :
    convert_tags_to_text_lines ((Tag.Continuation, frag) :: rest) =
      Except.error DecodeError.MalformedContinuation := rfl

theorem contChunks_length (s : TextLine) :
    (contChunks s).length = (s.length + 254) / 255 := by
  induction s using contChunks.induct with
  | case1 => simp [contChunks_nil]
  | case2 s h ih =>
      rw [contChunks_ne_nil s h]
      simp only [List.length_cons, ih, List.length_drop]
      have hpos : 0 < s.length := List.length_pos.mpr h
      omega

theorem encodeLine_length (line : TextLine) :
    (encodeLine line).length =
      (if line.length = 0 then 1 else (line.length + 254) / 255) := by
  simp only [encodeLine, List.length_cons, contChunks_length, List.length_drop]
  split <;> omega

theorem contChunks_no_empty_frag (s : TextLine) :
    (Tag.Continuation, ([] : TextLine)) ∉ contChunks s := by
  induction s using contChunks.induct with
  | case1 => simp [contChunks_nil]
  | case2 s h ih =>
      rw [contChunks_ne_nil s h]
      simp only [List.mem_cons, not_or]
      refine ⟨?_, ih⟩
      intro heq
      have h2 := congrArg List.length (congrArg Prod.snd heq)
      simp only [List.length_take, List.length_nil] at h2
      have hpos : 0 < s.length := List.length_pos.mpr h
      omega

/-- C3: chunk-count law: a line of length n encodes to (n + 254) / 255 pairs
(the ceiling of n / 255) when n is positive, and to exactly one pair when
n = 0; moreover no emitted continuation fragment is ever empty, so a line
whose length is an exact multiple of 255 produces no trailing empty
continuation fragment. -/
theorem encode_chunk_count (line : TextLine) :
    (encodeLine line).length =
        (if line.length = 0 then 1 else (line.length + 254) / 255) ∧
      (Tag.Continuation, ([] : TextLine)) ∉ encodeLine line := by
  refine ⟨encodeLine_length line, ?_⟩
  simp only [encodeLine, List.mem_cons, not_or]
  refine ⟨?_, contChunks_no_empty_frag _⟩
  intro heq
  exact Tag.noConfusion (congrArg Prod.fst heq)

theorem contChunks_map_fst (s : TextLine) :
    (contChunks s).map Prod.fst =
      List.replicate (contChunks s).length Tag.Continuation := by
  induction s using contChunks.induct with
  | case1 => simp [contChunks_nil]
  | case2 s h ih =>
      rw [contChunks_ne_nil s h]
      simp [ih, List.replicate_succ]

/-- C4: tag law and wire codes: Primary has wire code 1 and Continuation has
wire code 3; the first pair encode produces for each line is Primary-tagged
and every subsequent pair for the same line is Continuation-tagged; the
output of encode is the in-order concatenation of the per-line blocks, so
every Continuation pair belongs to the line of the nearest preceding
Primary pair. -/
theorem encode_tag_law :
    tag_code Tag.Primary = 1 ∧ tag_code Tag.Continuation = 3 ∧
      (∀ line : TextLine,
        (encodeLine line).map Prod.fst =
          Tag.Primary ::
            List.replicate ((encodeLine line).length - 1) Tag.Continuation) ∧
      (∀ lines : List TextLine,
        convert_text_lines_to_tags lines = (lines.map encodeLine).flatten) := by
  refine ⟨rfl, rfl, ?_, fun _ => rfl⟩
  intro line
  simp [encodeLine, contChunks_map_fst]

set_option maxRecDepth 4000 in
theorem line300_length : line300.length = 300 := by decide

theorem encodeLine_line300 :
    encodeLine line300 =
      [(Tag.Primary, line300.take 255), (Tag.Continuation, line300.drop 255)] := by
  have h45 : (line300.drop 255).length = 45 := by
    rw [List.length_drop, line300_length]
  have hne : line300.drop 255 ≠ [] := by
    intro hnil
    rw [hnil] at h45
    exact absurd h45 (by decide)
  have hle : (line300.drop 255).length ≤ 255 := by omega
  rw [encodeLine, contChunks_short _ hne hle]

theorem contChunks_frag_le (s : TextLine) :
    (contChunks s).all (fun p => decide (p.2.length ≤ 255)) := by
  induction s using contChunks.induct with
  | case1 => simp [contChunks_nil]
  | case2 s h ih =>
      rw [contChunks_ne_nil s h]
      simp only [List.all_cons, ih, Bool.and_true, decide_eq_true_eq,
        List.length_take]
      omega

/-- C5: encode content and ordering: encode is the in-order concatenation of
the per-line pair sequences; for each line the in-order concatenation of the
emitted fragments equals the original line and every emitted fragment has at
most 255 characters; concretely, encoding two copies of the 300-character
line "0123456789" * 30 yields exactly the four pairs of the test. -/
theorem encode_content_ordering :
    (∀ lines : List TextLine,
        convert_text_lines_to_tags lines = (lines.map encodeLine).flatten) ∧
      (∀ line : TextLine, ((encodeLine line).map Prod.snd).flatten = line) ∧
      (∀ line : TextLine,
        (encodeLine line).all (fun p => decide (p.2.length ≤ 255))) ∧
      convert_text_lines_to_tags [line300, line300] =
        [(Tag.Primary, line300.take 255), (Tag.Continuation, line300.drop 255),
         (Tag.Primary, line300.take 255), (Tag.Continuation, line300.drop 255)] := by
  refine ⟨fun _ => rfl, encodeLine_snd_flatten, ?_, ?_⟩
  · intro line
    simp only [encodeLine, List.all_cons, contChunks_frag_le, Bool.and_true,
      decide_eq_true_eq, List.length_take]
    omega
  · rw [encode_cons, encode_cons, encodeLine_line300]
    rfl

theorem decodeScan_conts (fs : List TextLine) :
    ∀ (cur : TextLine) (rest : List (Tag × TextLine)),
      decodeScan (some cur) (fs.map (fun f => (Tag.Continuation, f)) ++ rest) =
        decodeScan (some (cur ++ fs.flatten)) rest := by
  induction fs with
  | nil =>
      intro cur rest
      simp
  | cons f fs ih =>
      intro cur rest
      simp only [List.map_cons, List.cons_append, decodeScan, List.append_eq, ih,
        List.flatten_cons, List.append_assoc]

theorem decodeScan_blocks (blocks : List (TextLine × List TextLine)) :
    ∀ cur : Option TextLine,
      decodeScan cur ((blocks.map blockTags).flatten) =
        Except.ok (cur.toList ++ blocks.map blockLine) := by
  induction blocks with
  | nil =>
      intro cur
      cases cur <;> rfl
  | cons b bs ih =>
      intro cur
      simp only [List.map_cons, List.flatten_cons, blockTags]
      cases cur with
      | none =>
          simp only [List.cons_append, decodeScan, List.append_eq, decodeScan_conts,
            ih (some _), Option.toList, blockLine]
          rfl
      | some c =>
          simp only [List.cons_append, decodeScan, List.append_eq, decodeScan_conts,
            ih (some _), Option.toList, Except.map, blockLine]
          rfl

theorem conts_primary_count (fs : List TextLine) :
    (fs.map (fun f => (Tag.Continuation, f))).countP
        (fun p => p.1 == Tag.Primary) = 0 := by
  induction fs with
  | nil => rfl
  | cons f fs ih => simp [List.countP_cons, ih]

theorem blocks_primary_count (blocks : List (TextLine × List TextLine)) :
    ((blocks.map blockTags).flatten).countP (fun p => p.1 == Tag.Primary) =
      blocks.length := by
  induction blocks with
  | nil => rfl
  | cons b bs ih =>
      simp only [List.map_cons, List.flatten_cons, List.countP_append, ih,
        blockTags, List.countP_cons, conts_primary_count, beq_self_eq_true,
        if_true, List.length_cons]
      omega

/-- C6: decode semantics: a well-formed input, the in-order concatenation of
blocks each made of one Primary fragment followed by the Continuation
fragments of the same line, decodes to one output line per block, in block
order, each the concatenation of the Primary fragment with its Continuation
fragments; in particular each Primary pair contributes exactly one output
line (the output length equals the number of Primary pairs), even when its
fragment is empty. -/
theorem decode_scan_semantics (blocks : List (TextLine × List TextLine)) :
    convert_tags_to_text_lines ((blocks.map blockTags).flatten) =
        Except.ok (blocks.map blockLine) ∧
      (blocks.map blockLine).length =
        ((blocks.map blockTags).flatten).countP (fun p => p.1 == Tag.Primary) := by
  constructor
  · rw [convert_tags_to_text_lines, decodeScan_blocks blocks none]
    rfl
  · rw [blocks_primary_count]
    simp

/-- C7: empty-input and empty-line edge cases: encode of the empty sequence
is the empty sequence, decode of the empty sequence is the empty sequence,
an empty-string line emits exactly one (Primary, "") pair, and encode is
total with at least one pair per input line. -/
theorem encode_decode_empty_cases :
    convert_text_lines_to_tags [] = [] ∧
      convert_tags_to_text_lines [] = Except.ok [] ∧
      (∀ lines : List TextLine,
        convert_text_lines_to_tags (([] : TextLine) :: lines) =
          (Tag.Primary, ([] : TextLine)) :: convert_text_lines_to_tags lines) ∧
      (∀ lines : List TextLine,
        lines.length ≤ (convert_text_lines_to_tags lines).length) := by
  refine ⟨rfl, rfl, ?_, ?_⟩
  · intro lines
    rw [encode_cons]
    simp [encodeLine, contChunks_nil]
  · intro lines
    induction lines with
    | nil => simp [convert_text_lines_to_tags]
    | cons l ls ih =>
        rw [encode_cons]
        simp only [List.length_cons, List.length_append, encodeLine]
        omega

/-- C8: Bezier.render raises the ValueError with message "Two or more points
needed!" whenever fewer than two control points were added, and in that case
neither add_polyline2d nor add_polyline3d is reached: the render result is
the error, not a PolylineCall. -/
theorem bezier_render_too_few_points (approximate : BezSegment → List V3)
    (points : List BezPoint) (force3d : Bool) (h : points.length < 2) :
    bezier_render approximate points force3d =
      Except.error "Two or more points needed!" := by
  have hcond : ¬ 1 < points.length := by omega
  simp [bezier_render, build_bezier_segments, hcond]

theorem bezier_render_too_few_points_witness :
    ([] : List BezPoint).length < 2 ∧
      bezier_render (fun _ => []) ([] : List BezPoint) false =
        Except.error "Two or more points needed!" :=
  ⟨by decide, bezier_render_too_few_points (fun _ => []) [] false (by decide)⟩

/-- C9: with at least two control points, Bezier.render performs exactly one
sink call, passing the concatenation, in segment order, of the approximation
points of each consecutive-pair segment; the call is add_polyline3d exactly
when force3d is set or at least one accumulated point has a nonzero z
coordinate, and add_polyline2d otherwise. -/
theorem bezier_render_dispatch (approximate : BezSegment → List V3)
    (points : List BezPoint) (force3d : Bool) (h : 2 ≤ points.length) :
    bezier_render approximate points force3d =
        Except.ok
          (if bezier_uses_3d approximate points force3d then
            PolylineCall.add_polyline3d (bezier_points approximate points)
           else
            PolylineCall.add_polyline2d (bezier_points approximate points)) ∧
      (bezier_uses_3d approximate points force3d = true ↔
        force3d = true ∨ ∃ p ∈ bezier_points approximate points, p.2.2 ≠ 0) := by
  constructor
  · have hcond : 1 < points.length := by omega
    simp only [bezier_render, build_bezier_segments, hcond, if_true,
      bezier_uses_3d, bezier_points]
    split <;> rfl
  · simp [bezier_uses_3d, List.any_eq_true, bne_iff_ne]

theorem bezier_render_dispatch_witness :
    2 ≤ bezTestPoints.length ∧
      (bezier_render (fun _ => [(0, 0, 1)]) bezTestPoints false =
          Except.ok
            (if bezier_uses_3d (fun _ => [(0, 0, 1)]) bezTestPoints false then
              PolylineCall.add_polyline3d
                (bezier_points (fun _ => [(0, 0, 1)]) bezTestPoints)
             else
              PolylineCall.add_polyline2d
                (bezier_points (fun _ => [(0, 0, 1)]) bezTestPoints)) ∧
        (bezier_uses_3d (fun _ => [(0, 0, 1)]) bezTestPoints false = true ↔
          false = true ∨
            ∃ p ∈ bezier_points (fun _ => [(0, 0, 1)]) bezTestPoints,
              p.2.2 ≠ 0)) :=
  ⟨by decide, bezier_render_dispatch (fun _ => [(0, 0, 1)]) bezTestPoints false
    (by decide)⟩

/-- C10 counterexample: for startangle = endangle = 0 with one segment, the
single sampled angle is 0, which is the endangle, and the emitted point is
the curve point at the endangle; so the claim that the point at endangle is
never emitted is false as stated. -/
theorem ellipse_emits_endangle_point :
    ellipse_sample_angles 0 0 1 = [(0 : ℚ)] ∧
      (ellipse_render (fun a => (a, a, a)) 0 0 1).1 =
        [((0 : ℚ), (0 : ℚ), (0 : ℚ))] := by
  constructor
  · show [(0 : ℚ) + (0 - 0) / ((1 : ℕ) : ℚ) * ((0 : ℕ) : ℚ)] = [(0 : ℚ)]
    norm_num
  · show [((fun a : ℚ => (a, a, a)) ((0 : ℚ) + (0 - 0) / ((1 : ℕ) : ℚ) * ((0 : ℕ) : ℚ)))] =
      [((0 : ℚ), (0 : ℚ), (0 : ℚ))]
    norm_num

/-- C10 (amended): for segments = n with n at least 1, Ellipse.render passes
to add_polyline2d exactly the n curve points at angles
startangle + k * (endangle - startangle) / n for k = 0 .. n - 1; when
startangle and endangle differ, no sampled angle equals endangle (the
endangle sample itself is omitted, closure being conveyed instead by the
closed attribute, set when startangle equals endangle normalized into
[0, 360)). -/
theorem ellipse_render_samples (curve_point : ℚ → V3)
    (startangle endangle : ℚ) (n : ℕ) (h : 1 ≤ n) :
    (ellipse_render curve_point startangle endangle n).1 =
        (List.range n).map
          (fun k : ℕ => curve_point
            (startangle + (endangle - startangle) / (n : ℚ) * (k : ℚ))) ∧
      (ellipse_render curve_point startangle endangle n).1.length = n ∧
      (startangle ≠ endangle → ∀ k : ℕ, k < n →
        startangle + (endangle - startangle) / (n : ℚ) * (k : ℚ) ≠ endangle) ∧
      (ellipse_render curve_point startangle endangle n).2 =
        equals_almost startangle (normalize_angle endangle) := by
  refine ⟨?_, ?_, ?_, rfl⟩
  · simp only [ellipse_render, ellipse_sample_angles, List.map_map]
    rfl
  · simp only [ellipse_render, ellipse_sample_angles, List.length_map,
      List.length_range]
  · intro hne k hk heq
    have hn0 : (n : ℚ) ≠ 0 := Nat.cast_ne_zero.mpr (by omega)
    have hd : endangle - startangle ≠ 0 := sub_ne_zero.mpr (Ne.symm hne)
    have h2 : (endangle - startangle) * (k : ℚ) =
        (endangle - startangle) * (n : ℚ) := by
      have hmul := congrArg (fun z => z * (n : ℚ)) heq
      simp only at hmul
      field_simp at hmul
      ring_nf at hmul ⊢
      linarith
    have h3 : (k : ℚ) = (n : ℚ) := mul_left_cancel₀ hd h2
    have h4 : k = n := Nat.cast_inj.mp h3
    omega

theorem ellipse_render_samples_witness :
    1 ≤ 4 ∧
      ((ellipse_render (fun a => (a, 0, 0)) 0 360 4).1 =
          (List.range 4).map
            (fun k : ℕ => (fun a => ((a : ℚ), (0 : ℚ), (0 : ℚ)))
              (0 + (360 - 0) / ((4 : ℕ) : ℚ) * (k : ℚ))) ∧
        (ellipse_render (fun a => (a, 0, 0)) 0 360 4).1.length = 4 ∧
        ((0 : ℚ) ≠ 360 → ∀ k : ℕ, k < 4 →
          0 + (360 - 0) / ((4 : ℕ) : ℚ) * (k : ℚ) ≠ 360) ∧
        (ellipse_render (fun a => (a, 0, 0)) 0 360 4).2 =
          equals_almost 0 (normalize_angle 360)) :=
  ⟨by decide, ellipse_render_samples (fun a => (a, 0, 0)) 0 360 4 (by decide)⟩

end Ezdxf
